import Mathlib

/-!
Verification development for the RepoMind retrieval / caching / review
pipeline (`legacy-python-app`).  Each Python function relevant to the
claims is shallowly embedded as a Lean definition operating on
`List Char` (Python `str`), `Int` (Python `int`), `ℚ` (backoff delays)
and `ℝ` (embedding vectors).  External effects are made explicit:
the metrics JSONL file becomes a list of parsed lines, `uuid4` and
timestamps become parameters, `random.random()` becomes a supplied
sequence of draws, and the decorated function of the retry wrapper
becomes a map from attempt index to outcome.
-/

/- ---------------------------------------------------------------
Python string primitives, embedded on `List Char`.
--------------------------------------------------------------- -/

/-- Characters stripped by Python `str.strip()` (ASCII portion). -/
def pyWS (c : Char) : Bool :=
  c = ' ' || c = '\t' || c = '\n' || c = '\r' || c = '\x0b' || c = '\x0c'

/-- Python `str.strip()`. -/
def stripL (s : List Char) : List Char :=
  ((s.dropWhile pyWS).reverse.dropWhile pyWS).reverse

/-- Python `str.lower()` (ASCII portion). -/
def toLowerL (s : List Char) : List Char := s.map Char.toLower

/-- Does `s` start with the pattern `pat`?  Python `str.startswith`. -/
def beginsWith : List Char → List Char → Bool
  | _, [] => true
  | [], _ :: _ => false
  | c :: s, p :: pat => c = p && beginsWith s pat

/-- Worker for `splitLinesPy`; `cur` is the current line, reversed. -/
def splitLinesGo : List Char → List Char → List (List Char)
  | cur, [] => [cur.reverse]
  | cur, '\r' :: '\n' :: rest =>
    cur.reverse :: (match rest with | [] => [] | _ :: _ => splitLinesGo [] rest)
  | cur, '\r' :: rest =>
    cur.reverse :: (match rest with | [] => [] | _ :: _ => splitLinesGo [] rest)
  | cur, '\n' :: rest =>
    cur.reverse :: (match rest with | [] => [] | _ :: _ => splitLinesGo [] rest)
  | cur, c :: rest => splitLinesGo (c :: cur) rest

/-- Python `str.splitlines()` (for the line endings `\n`, `\r\n`, `\r`):
no trailing empty line, and the empty string yields no lines. -/
def splitLinesPy (s : List Char) : List (List Char) :=
  match s with
  | [] => []
  | _ :: _ => splitLinesGo [] s

/-- Worker for `splitOnC`; `cur` is the current piece, reversed. -/
def splitOnCGo (sep : Char) : List Char → List Char → List (List Char)
  | cur, [] => [cur.reverse]
  | cur, c :: rest =>
    if c = sep then cur.reverse :: splitOnCGo sep [] rest
    else splitOnCGo sep (c :: cur) rest

/-- Python `str.split(sep)` for a one-character separator: keeps empty
pieces, and splitting the empty string yields `[""]`. -/
def splitOnC (sep : Char) (s : List Char) : List (List Char) :=
  splitOnCGo sep [] s

/-- Python `sep in s` for a one-character `sep`. -/
def containsC (s : List Char) (sep : Char) : Bool := s.any (· = sep)

/-- Numeric value of a run of decimal digits. -/
def digitsToNat (s : List Char) : Nat :=
  s.foldl (fun a c => a * 10 + (c.toNat - ('0').toNat)) 0

/-- Python `int(str)`: strips whitespace, allows one optional sign,
then requires a non-empty run of decimal digits (digit-group
underscores and non-ASCII digits are outside the modelled fragment). -/
def pyInt (s : List Char) : Option Int :=
  let t := stripL s
  match t with
  | [] => Option.none
  | '-' :: r =>
    if r ≠ [] && r.all Char.isDigit then some (-(digitsToNat r : Int)) else Option.none
  | '+' :: r =>
    if r ≠ [] && r.all Char.isDigit then some (digitsToNat r : Int) else Option.none
  | _ =>
    if t.all Char.isDigit then some (digitsToNat t : Int) else Option.none

/-- Join pieces with a separator, Python `sep.join(...)`. -/
def joinSep (sep : List Char) : List (List Char) → List Char
  | [] => []
  | [x] => x
  | x :: y :: rest => x ++ sep ++ joinSep sep (y :: rest)

/- ---------------------------------------------------------------
utils/retry.py — `with_retry`.

The decorated callable is modelled as `f : Nat → Except PyErr α`
(outcome of its k-th invocation, 0-based), `random.random()` as the
draw sequence `js`, and `time.sleep` as an accumulated trace of the
slept durations.  Exceptions are the classes named in the source's
`retry_on` tuple plus a catch-all for everything else; for
`requests.HTTPError` the carried status is `e.response.status_code`
(`Option.none` when `e.response is None`).
--------------------------------------------------------------- -/

inductive PyErr where
  /-- `openai.RateLimitError` -/
  | rateLimitErr
  /-- any other `openai.APIError` -/
  | apiErr
  /-- `requests.HTTPError`, with `e.response.status_code` if a response is attached -/
  | httpErr (status : Option Int)
  /-- any exception outside the `retry_on` tuple -/
  | otherErr
deriving Repr, DecidableEq

/-- Membership in the `retry_on` tuple
`(openai.RateLimitError, openai.APIError, requests.HTTPError)`. -/
def retryCatches : PyErr → Bool
  | PyErr.otherErr => false
  | _ => true

/-- The special case for `requests.HTTPError`: re-raise when the status
is not one of 429, 500, 502, 503, 504 (a missing response counts as
`status = None`, which is also not in the tuple). -/
def httpNonRetriable : PyErr → Bool
  | PyErr.httpErr (some s) => decide (s ∉ ([429, 500, 502, 503, 504] : List Int))
  | PyErr.httpErr Option.none => true
  | _ => false

/-- Observable behaviour of one `with_retry`-wrapped call:
`outcome` is `some (ok a)` for a return, `some (error e)` for an
uncaught/re-raised exception, `Option.none` when the loop body never
ran (only possible with `max_retries = 0`, where Python returns
`None`); `calls` counts invocations of the wrapped function and
`sleeps` records the durations passed to `time.sleep`, in order. -/
structure RetryTrace (α : Type) where
  outcome : Option (Except PyErr α)
  calls : Nat
  sleeps : List ℚ
deriving Repr

/-- The `for attempt in range(max_retries)` loop of `with_retry`;
`remaining` is `max_retries - attempt` and `delay` the current base
delay (doubled after every sleep). -/
def withRetryGo {α : Type} (f : Nat → Except PyErr α) (js : Nat → ℚ) (jitter : ℚ) :
    Nat → Nat → ℚ → RetryTrace α
  | 0, _, _ => ⟨Option.none, 0, []⟩
  | remaining + 1, attempt, delay =>
    match f attempt with
    | Except.ok a => ⟨some (Except.ok a), 1, []⟩
    | Except.error e =>
      if retryCatches e = false then ⟨some (Except.error e), 1, []⟩
      else if httpNonRetriable e then ⟨some (Except.error e), 1, []⟩
      else if remaining = 0 then ⟨some (Except.error e), 1, []⟩
      else
        let t := withRetryGo f js jitter remaining (attempt + 1) (delay * 2)
        ⟨t.outcome, t.calls + 1, (delay + js attempt * jitter) :: t.sleeps⟩

/-- `with_retry(max_retries, base_delay, jitter)` applied to `f`.
Source defaults: `max_retries = 3`, `base_delay = 1.0`, `jitter = 0.5`. -/
def with_retry {α : Type} (maxRetries : Nat) (baseDelay jitter : ℚ)
    (js : Nat → ℚ) (f : Nat → Except PyErr α) : RetryTrace α :=
  withRetryGo f js jitter maxRetries 0 baseDelay

/- ---------------------------------------------------------------
pr/diff_ingestion.py — `_parse_unified_header` and
`build_diff_chunks_from_github_files`.
--------------------------------------------------------------- -/

/-- The body of the `try:` block run on the first `@@` line: find the
first token starting with `+` (its absence is the `IndexError`),
strip leading `+`s, split at the first comma if any, convert with
`int(...)`; any failure is the caught exception. -/
def parsePlusToken (line : List Char) : Option (Int × Int) :=
  let parts := splitOnC ' ' line
  match parts.find? (fun p => beginsWith p [('+')]) with
  | Option.none => Option.none
  | some plusTok =>
    let plusPart := plusTok.dropWhile (· = '+')
    if containsC plusPart ',' then
      let startStr := plusPart.takeWhile (· ≠ ',')
      let lengthStr := (plusPart.dropWhile (· ≠ ',')).drop 1
      match pyInt startStr, pyInt lengthStr with
      | some ns, some nl => some (ns, ns + nl - 1)
      | _, _ => Option.none
    else
      match pyInt plusPart with
      | some ns => some (ns, ns + 1 - 1)
      | Option.none => Option.none

/-- The first stripped line of the patch beginning with `@@`, if any. -/
def firstHeaderLine (patch : List Char) : Option (List Char) :=
  ((splitLinesPy patch).map stripL).find? (fun l => beginsWith l [('@'), ('@')])

/-- `_parse_unified_header`: returns `(header_line, new_start, new_end)`;
`("", 1, 1)` when the patch is empty or has no `@@` line, and
`(line, 1, 1)` when the first `@@` line fails to parse. -/
def parse_unified_header (patch : String) : String × Int × Int :=
  if patch = ("") then (("") , 1, 1)
  else
    match firstHeaderLine patch.data with
    | Option.none => (("") , 1, 1)
    | some line =>
      match parsePlusToken line with
      | some (ns, ne) => (String.mk line, ns, ne)
      | Option.none => (String.mk line, 1, 1)

/-- One entry of the GitHub `files` JSON for a pull request:
`filename` is mandatory (`f["filename"]`), `status` defaults to
`"modified"` and `patch` may be absent for binary/large files. -/
structure GitHubFile where
  filename : String
  status : Option String
  patch : Option String
deriving Repr, DecidableEq

/-- `pr/models.py` `DiffChunk`.  The `id` field (a fresh `uuid4`) is
externally generated randomness and is omitted from the embedding. -/
structure DiffChunk where
  repo_id : String
  pr_number : Int
  file_path : String
  status : String
  hunk_header : String
  new_start : Int
  new_end : Int
  patch_text : String
deriving Repr, DecidableEq

/-- `build_diff_chunks_from_github_files`: one chunk per file whose
patch is present and non-empty (`if not patch: continue`). -/
def build_diff_chunks_from_github_files (repoId : String) (prNumber : Int)
    (files : List GitHubFile) : List DiffChunk :=
  files.filterMap (fun f =>
    match f.patch with
    | Option.none => Option.none
    | some p =>
      if p = ("") then Option.none
      else
        some { repo_id := repoId
               pr_number := prNumber
               file_path := f.filename
               status := f.status.getD ("modified")
               hunk_header := (parse_unified_header p).1
               new_start := (parse_unified_header p).2.1
               new_end := (parse_unified_header p).2.2
               patch_text := p })

/- ---------------------------------------------------------------
ingestion/parser.py — `guess_language` and `chunk_file`.

Lines are produced by `text.splitlines()`; the `while` loop walks an
`Int` window start (Python integers are unbounded and `end - overlap`
can go negative when `overlap >= max_lines`), and `lines[start:end]`
uses Python slice semantics.  The loop is embedded with a fuel
argument: `Option.none` means the fuel was exhausted, i.e. the Python
loop was still running after that many iterations.  The chunk `id`
(a fresh `uuid4`) and the initially empty `metadata` dict are omitted
from the embedding; `start_line` is 1-based like the source.
--------------------------------------------------------------- -/

/-- Normalize one Python slice index for a sequence of length `n`. -/
def pyNormIdx (n i : Int) : Int :=
  if i < 0 then max (i + n) 0 else min i n

/-- Python `l[s:e]` (step 1). -/
def pySliceL {α : Type} (l : List α) (s e : Int) : List α :=
  (l.take (pyNormIdx l.length e).toNat).drop (pyNormIdx l.length s).toNat

/-- Python `Path(p).suffix`, approximated: the lowercase-relevant
extension of the last path component, `""` for extension-less names
and for hidden files like `.bashrc`. -/
def pathSuffix (p : List Char) : List Char :=
  let base := ((splitOnC '/' p).getLastD [])
  let parts := splitOnC '.' base
  match parts with
  | [] => []
  | [_] => []
  | first :: rest =>
    if first = [] && rest.length = 1 then []
    else ('.') :: rest.getLastD []

/-- The extension-to-language table of `guess_language`. -/
def languageTable : List (List Char × List Char) :=
  [ ((".py").data, ("python").data)
  , ((".js").data, ("javascript").data)
  , ((".jsx").data, ("javascript").data)
  , ((".ts").data, ("typescript").data)
  , ((".tsx").data, ("typescript").data)
  , ((".java").data, ("java").data)
  , ((".go").data, ("go").data)
  , ((".rb").data, ("ruby").data)
  , ((".rs").data, ("rust").data)
  , ((".cpp").data, ("cpp").data)
  , ((".c").data, ("c").data)
  , ((".cs").data, ("csharp").data)
  , ((".php").data, ("php").data)
  , ((".scala").data, ("scala").data) ]

/-- `guess_language`: look up the lowercased extension, default `"text"`. -/
def guess_language (path : String) : String :=
  let ext := toLowerL (pathSuffix path.data)
  match (languageTable.find? (fun kv => kv.1 = ext)).map (fun kv => kv.2) with
  | some lang => String.mk lang
  | Option.none => ("text")

/-- `ingestion/models.py` `CodeChunk` (without the random `id` and the
initially empty `metadata` dict). -/
structure CodeChunk where
  repo_id : String
  file_path : String
  language : String
  start_line : Int
  end_line : Int
  content : String
deriving Repr, DecidableEq

/-- Content of the window `lines[start:e]`, i.e. `"\n".join(...)`. -/
def windowContent (lines : List (List Char)) (start e : Int) : List Char :=
  joinSep [('\n')] (pySliceL lines start e)

/-- The `while start < len(lines)` loop of `chunk_file`.  One fuel unit
per iteration; `Option.none` = fuel exhausted with the loop still
running. -/
def chunkFileGo (repoId filePath language : String) (lines : List (List Char))
    (maxL ov : Int) : Nat → Int → Option (List CodeChunk)
  | 0, _ => Option.none
  | fuel + 1, start =>
    if start < (lines.length : Int) then
      let e := min (start + maxL) (lines.length : Int)
      let content := windowContent lines start e
      let kept : List CodeChunk :=
        if stripL content ≠ [] then
          [⟨repoId, filePath, language, start + 1, e, String.mk content⟩]
        else []
      if e = (lines.length : Int) then some kept
      else
        match chunkFileGo repoId filePath language lines maxL ov fuel (e - ov) with
        | some rest => some (kept ++ rest)
        | Option.none => Option.none
    else some []

/-- `chunk_file` on the decoded file text (`file_path.read_text` is
external I/O; its result is the `text` argument).  The fuel
`len(lines) + 1` is sufficient whenever `overlap_lines <
max_lines_per_chunk`, which the termination theorem below proves. -/
def chunk_file (repoId filePath text : String) (maxL ov : Int) :
    Option (List CodeChunk) :=
  chunkFileGo repoId filePath (guess_language filePath) (splitLinesPy text.data)
    maxL ov ((splitLinesPy text.data).length + 1) 0

/-- The window boundaries `(start, end)` the same loop generates,
before the blank-content filter. -/
def chunkWindowsGo (n maxL ov : Int) : Nat → Int → Option (List (Int × Int))
  | 0, _ => Option.none
  | fuel + 1, start =>
    if start < n then
      let e := min (start + maxL) n
      if e = n then some [(start, e)]
      else
        match chunkWindowsGo n maxL ov fuel (e - ov) with
        | some rest => some ((start, e) :: rest)
        | Option.none => Option.none
    else some []

/-- All windows of a file, with the same fuel as `chunk_file`. -/
def chunkWindows (text : String) (maxL ov : Int) : Option (List (Int × Int)) :=
  chunkWindowsGo (splitLinesPy text.data).length maxL ov
    ((splitLinesPy text.data).length + 1) 0

/-- The chunk a window yields, if its content survives the
`if content.strip():` filter. -/
def windowChunk (repoId filePath language : String) (lines : List (List Char))
    (w : Int × Int) : Option CodeChunk :=
  let content := windowContent lines w.1 w.2
  if stripL content ≠ [] then
    some ⟨repoId, filePath, language, w.1 + 1, w.2, String.mk content⟩
  else Option.none

/-- Number of (1-based) line numbers covered by both chunks. -/
def sharedLines (c d : CodeChunk) : Int :=
  max 0 (min c.end_line d.end_line - max c.start_line d.start_line + 1)

/- ---------------------------------------------------------------
A model of the Python values produced by `json.loads`, of Python
truthiness / `str()` / `int()` on them, and of `json.loads` itself
(`graphs/pr_review_graph.py` and `metrics/store.py` only ever consume
JSON).  JSON numbers are modelled as integers: the reviewed claims
only exercise integral line numbers and counts; an input with a
float literal is outside the modelled fragment.
--------------------------------------------------------------- -/

inductive PyObj where
  /-- JSON `null` / Python `None` -/
  | pynone
  | pybool (b : Bool)
  | pyint (n : Int)
  | pystr (s : List Char)
  | pylist (items : List PyObj)
  /-- a `dict` in insertion order with distinct keys -/
  | pydict (entries : List (List Char × PyObj))
deriving Repr

/-- Python truthiness of a JSON-derived value. -/
def pyFalsy : PyObj → Bool
  | PyObj.pynone => true
  | PyObj.pybool b => !b
  | PyObj.pyint n => n = 0
  | PyObj.pystr s => s.isEmpty
  | PyObj.pylist l => l.isEmpty
  | PyObj.pydict l => l.isEmpty

/-- `dict.get`: the value at `k`, if present. -/
def pyGet (kvs : List (List Char × PyObj)) (k : List Char) : Option PyObj :=
  (kvs.find? (fun kv => kv.1 = k)).map (fun kv => kv.2)

/-- Insert into a dict: overwrite in place if the key exists
(keeping its position), else append. -/
def dictInsert (kvs : List (List Char × PyObj)) (k : List Char) (v : PyObj) :
    List (List Char × PyObj) :=
  if kvs.any (fun kv => kv.1 = k) then
    kvs.map (fun kv => if kv.1 = k then (kv.1, v) else kv)
  else kvs ++ [(k, v)]

/-- Python `str()` with bounded recursion depth; list/dict rendering
follows `repr` (single-quoted strings, `", "` / `": "` separators;
escaping inside rendered strings is not modelled). -/
def pyStrF : Nat → PyObj → List Char
  | 0, _ => []
  | fuel + 1, obj =>
    match obj with
    | PyObj.pynone => ("None").data
    | PyObj.pybool b => if b then ("True").data else ("False").data
    | PyObj.pyint n => (toString n).data
    | PyObj.pystr s => s
    | PyObj.pylist l =>
      ('[' :: joinSep ((", ").data) (l.map (pyStrF fuel))) ++ [']']
    | PyObj.pydict l =>
      ('{' :: joinSep ((", ").data)
        (l.map (fun kv => '\'' :: kv.1 ++ ('\'' :: (": ").data) ++ pyStrF fuel kv.2))) ++ ['}']

/-- Python `int(x)` on a JSON-derived value: ints and bools convert,
numeric strings parse, everything else raises (`Option.none`). -/
def pyToInt : PyObj → Option Int
  | PyObj.pyint n => some n
  | PyObj.pybool b => some (if b then 1 else 0)
  | PyObj.pystr s => pyInt s
  | _ => Option.none

/-- Python `for x in obj`: lists yield items, dicts their keys,
strings their characters; other values raise `TypeError`
(`Option.none`). -/
def pyIterItems : PyObj → Option (List PyObj)
  | PyObj.pylist l => some l
  | PyObj.pydict l => some (l.map (fun kv => PyObj.pystr kv.1))
  | PyObj.pystr s => some (s.map (fun c => PyObj.pystr [c]))
  | _ => Option.none

/-- JSON whitespace. -/
def jsonWS (c : Char) : Bool := c = ' ' || c = '\t' || c = '\n' || c = '\r'

/-- Drop leading JSON whitespace. -/
def skipWSJ (s : List Char) : List Char := s.dropWhile jsonWS

/-- Value of one hex digit. -/
def hexVal (c : Char) : Option Nat :=
  if c.isDigit then some (c.toNat - ('0').toNat)
  else if 'a' ≤ c && c ≤ 'f' then some (c.toNat - ('a').toNat + 10)
  else if 'A' ≤ c && c ≤ 'F' then some (c.toNat - ('A').toNat + 10)
  else Option.none

/-- Body of a JSON string after the opening quote: content plus the
rest of the input after the closing quote.  Control characters are
rejected (`strict=True`); `\uXXXX` escapes decode when they denote a
valid scalar (lone surrogates are outside the modelled fragment). -/
def jsonStringGo : Nat → List Char → Option (List Char × List Char)
  | 0, _ => Option.none
  | fuel + 1, s =>
    match s with
    | [] => Option.none
    | '"' :: rest => some ([], rest)
    | '\\' :: esc :: rest =>
      let decoded : Option (Char × List Char) :=
        if esc = '"' then some ('"', rest)
        else if esc = '\\' then some ('\\', rest)
        else if esc = '/' then some ('/', rest)
        else if esc = 'b' then some ('\x08', rest)
        else if esc = 'f' then some ('\x0c', rest)
        else if esc = 'n' then some ('\n', rest)
        else if esc = 'r' then some ('\r', rest)
        else if esc = 't' then some ('\t', rest)
        else if esc = 'u' then
          match rest with
          | a :: b :: c :: d :: r2 =>
            match hexVal a, hexVal b, hexVal c, hexVal d with
            | some ha, some hb, some hc, some hd =>
              let n := ((ha * 16 + hb) * 16 + hc) * 16 + hd
              if h : n.isValidChar then some (Char.ofNatAux n h, r2)
              else Option.none
            | _, _, _, _ => Option.none
          | _ => Option.none
        else Option.none
      match decoded with
      | some (c, r) => (jsonStringGo fuel r).map (fun p => (c :: p.1, p.2))
      | Option.none => Option.none
    | c :: rest =>
      if c.toNat < 32 then Option.none
      else (jsonStringGo fuel rest).map (fun p => (c :: p.1, p.2))

/-- The integral part of a JSON number (no leading zeros), with the
remaining input; fails when a fraction or exponent follows, since
floats are outside the modelled fragment. -/
def jsonNat (s : List Char) : Option (Nat × List Char) :=
  let ds := s.takeWhile Char.isDigit
  let rest := s.dropWhile Char.isDigit
  let flt := match rest with
    | c :: _ => c = '.' || c = 'e' || c = 'E'
    | [] => false
  if ds = [] || flt then Option.none
  else if ds.length > 1 && beginsWith ds [('0')] then Option.none
  else some (digitsToNat ds, rest)

/-- A JSON number restricted to integers. -/
def jsonNumber (s : List Char) : Option (Int × List Char) :=
  match s with
  | '-' :: r => (jsonNat r).map (fun p => (-(p.1 : Int), p.2))
  | _ => (jsonNat s).map (fun p => ((p.1 : Int), p.2))

mutual

/-- One JSON value, preceded by optional whitespace. -/
def jsonVal : Nat → List Char → Option (PyObj × List Char)
  | 0, _ => Option.none
  | fuel + 1, s =>
    let s1 := skipWSJ s
    match s1 with
    | [] => Option.none
    | c :: rest =>
      if c = '{' then
        match skipWSJ rest with
        | '}' :: r2 => some (PyObj.pydict [], r2)
        | r2 =>
          match jsonMembers fuel r2 with
          | some (kvs, r3) =>
            some (PyObj.pydict (kvs.foldl (fun acc kv => dictInsert acc kv.1 kv.2) []), r3)
          | Option.none => Option.none
      else if c = '[' then
        match skipWSJ rest with
        | ']' :: r2 => some (PyObj.pylist [], r2)
        | r2 =>
          match jsonElems fuel r2 with
          | some (vs, r3) => some (PyObj.pylist vs, r3)
          | Option.none => Option.none
      else if c = '"' then
        match jsonStringGo (rest.length + 1) rest with
        | some (str, r2) => some (PyObj.pystr str, r2)
        | Option.none => Option.none
      else if beginsWith s1 (("true").data) then some (PyObj.pybool true, s1.drop 4)
      else if beginsWith s1 (("false").data) then some (PyObj.pybool false, s1.drop 5)
      else if beginsWith s1 (("null").data) then some (PyObj.pynone, s1.drop 4)
      else
        match jsonNumber s1 with
        | some (n, r2) => some (PyObj.pyint n, r2)
        | Option.none => Option.none

/-- One or more comma-separated array elements, then `]`. -/
def jsonElems : Nat → List Char → Option (List PyObj × List Char)
  | 0, _ => Option.none
  | fuel + 1, s =>
    match jsonVal fuel s with
    | some (v, r) =>
      (match skipWSJ r with
       | ',' :: r2 =>
         match jsonElems fuel r2 with
         | some (vs, r3) => some (v :: vs, r3)
         | Option.none => Option.none
       | ']' :: r2 => some ([v], r2)
       | _ => Option.none)
    | Option.none => Option.none

/-- One or more `"key": value` members, then `}`. -/
def jsonMembers : Nat → List Char →
    Option (List (List Char × PyObj) × List Char)
  | 0, _ => Option.none
  | fuel + 1, s =>
    match skipWSJ s with
    | '"' :: r =>
      (match jsonStringGo (r.length + 1) r with
       | some (key, r2) =>
         (match skipWSJ r2 with
          | ':' :: r3 =>
            (match jsonVal fuel r3 with
             | some (v, r4) =>
               (match skipWSJ r4 with
                | ',' :: r5 =>
                  match jsonMembers fuel r5 with
                  | some (kvs, r6) => some ((key, v) :: kvs, r6)
                  | Option.none => Option.none
                | '}' :: r5 => some ([(key, v)], r5)
                | _ => Option.none)
             | Option.none => Option.none)
          | _ => Option.none)
       | Option.none => Option.none)
    | _ => Option.none

end

/-- `json.loads`, on the modelled fragment: a single JSON value with
nothing but whitespace around it.  The fuel `2|s| + 8` dominates the
recursion depth of any input of length `|s|`. -/
def jsonLoads (s : List Char) : Option PyObj :=
  match jsonVal (2 * s.length + 8) s with
  | some (v, r) => if skipWSJ r = [] then some v else Option.none
  | Option.none => Option.none

/- ---------------------------------------------------------------
graphs/pr_review_graph.py — `_parse_review_output`.

The result type is `Except`: `Except.error` is an exception
propagating to the caller (the source only guards `json.loads` with
`try`; attribute and type errors on a successfully parsed value are
not caught).  `str()` rendering threads a fuel bounded by the raw
input length, which dominates the nesting depth of any value
`json.loads` can produce from it.
--------------------------------------------------------------- -/

/-- `pr/models.py` `ReviewComment` as `_parse_review_output` builds it:
`file_path`, `body`, `rationale`, `suggestion` are stored exactly as
`c.get(...)` returned them (the dataclass does not validate), `line`
went through `int(...)`, `severity` / `category` through
`str(...).lower()`, and `extra` keeps every other key. -/
structure ReviewComment where
  pr_number : Int
  file_path : PyObj
  line : Int
  severity : List Char
  category : List Char
  body : PyObj
  rationale : PyObj
  suggestion : PyObj
  extra : List (List Char × PyObj)
deriving Repr

/-- The seven keys consumed by name; everything else goes to `extra`. -/
def namedCommentKeys : List (List Char) :=
  [ ("file_path").data, ("line").data, ("severity").data, ("category").data
  , ("body").data, ("rationale").data, ("suggestion").data ]

/-- One iteration of the comment loop: builds the `ReviewComment`, or
skips it (`except Exception: continue`) when `c` has no `.get`
(not a dict) or `int(c.get("line", 1))` raises. -/
def parse_comment (strFuel : Nat) (prNumber : Int) (c : PyObj) :
    Option ReviewComment :=
  match c with
  | PyObj.pydict kvs =>
    (match pyToInt ((pyGet kvs (("line").data)).getD (PyObj.pyint 1)) with
     | some ln =>
       some { pr_number := prNumber
              file_path := (pyGet kvs (("file_path").data)).getD (PyObj.pystr [])
              line := ln
              severity :=
                toLowerL (pyStrF strFuel
                  ((pyGet kvs (("severity").data)).getD (PyObj.pystr (("info").data))))
              category :=
                toLowerL (pyStrF strFuel
                  ((pyGet kvs (("category").data)).getD (PyObj.pystr (("readability").data))))
              body := (pyGet kvs (("body").data)).getD (PyObj.pystr [])
              rationale := (pyGet kvs (("rationale").data)).getD (PyObj.pystr [])
              suggestion := (pyGet kvs (("suggestion").data)).getD PyObj.pynone
              extra := kvs.filter (fun kv => decide (kv.1 ∉ namedCommentKeys)) }
     | Option.none => Option.none)
  | _ => Option.none

/-- `summary_items = data.get("summary") or []`, then the join:
a list joins as `"- " + "\n- ".join(str(s) for s in items)`, anything
else becomes `str(summary_items)`. -/
def build_summary (strFuel : Nat) (kvs : List (List Char × PyObj)) : List Char :=
  let si := (pyGet kvs (("summary").data)).getD PyObj.pynone
  let si := if pyFalsy si then PyObj.pylist [] else si
  match si with
  | PyObj.pylist l => ("- ").data ++ joinSep (("\n- ").data) (l.map (pyStrF strFuel))
  | x => pyStrF strFuel x

/-- `comments_json = data.get("comments") or []` followed by iteration:
`Option.none` is the uncaught `TypeError` of `for c in comments_json`
on a truthy non-iterable. -/
def comments_items (kvs : List (List Char × PyObj)) : Option (List PyObj) :=
  let cj := (pyGet kvs (("comments").data)).getD PyObj.pynone
  let cj := if pyFalsy cj then PyObj.pylist [] else cj
  pyIterItems cj

/-- The fallback summary of the inner `except` branch
(`f"Model did not return valid JSON. Raw output:\n\n{raw}"`). -/
def fallback_summary (raw : List Char) : List Char :=
  ("Model did not return valid JSON. Raw output:\n\n").data ++ raw

/-- Index of the first occurrence of `c`, Python `str.index`. -/
def idxOfC (c : Char) : List Char → Option Nat
  | [] => Option.none
  | x :: rest =>
    if x = c then some 0
    else (idxOfC c rest).map (· + 1)

/-- `raw[raw.index("{") : raw.rindex("}") + 1]`; `Option.none` is the
`ValueError` of a missing brace (caught by the inner `except`). -/
def brace_slice (raw : List Char) : Option (List Char) :=
  match idxOfC '{' raw, idxOfC '}' raw.reverse with
  | some i, some revj =>
    some ((raw.take (raw.length - revj)).drop i)
  | _, _ => Option.none

/-- The two parse attempts of `_parse_review_output`: direct
`json.loads(raw)`, then `json.loads` on the brace slice. -/
def extract_data (raw : List Char) : Option PyObj :=
  match jsonLoads raw with
  | some d => some d
  | Option.none => (brace_slice raw).bind jsonLoads

/-- `_parse_review_output(raw, pr_number)`.  `Except.error` marks an
exception reaching the caller: `data.get` on a non-dict
(`AttributeError`), or iterating a truthy non-iterable `comments`
value (`TypeError`). -/
def parse_review_output (raw : String) (prNumber : Int) :
    Except String (String × List ReviewComment) :=
  let strFuel := raw.data.length + 1
  match extract_data raw.data with
  | Option.none => Except.ok (String.mk (fallback_summary raw.data), [])
  | some (PyObj.pydict kvs) =>
    (match comments_items kvs with
     | some items =>
       Except.ok (String.mk (build_summary strFuel kvs),
         items.filterMap (parse_comment strFuel prNumber))
     | Option.none =>
       Except.error (("TypeError: the comments value is not iterable")))
  | some _ =>
    Except.error (("AttributeError: the parsed value is not a dict and has no get method"))

/- ---------------------------------------------------------------
metrics/store.py — `save_review_run` / `load_review_runs`.

The per-repository JSONL file is modelled at the granularity of
parsed lines: an element `some obj` is a line whose `json.loads`
yields `obj`, and `Option.none` is a malformed line (the
`json.dumps` / `json.loads` round trip of the standard library is
taken as given).  `uuid4()` and `datetime.now()` are parameters.
--------------------------------------------------------------- -/

/-- `collections.Counter` over a list of strings, as a dict in
first-occurrence order. -/
def bumpKey : List (List Char × Nat) → List Char → List (List Char × Nat)
  | [], k => [(k, 1)]
  | kv :: rest, k =>
    if kv.1 = k then (kv.1, kv.2 + 1) :: rest else kv :: bumpKey rest k

/-- `Counter(xs)` as an ordered dict. -/
def pyCounter (xs : List (List Char)) : List (List Char × Nat) :=
  xs.foldl bumpKey []

/-- A counter as the JSON object `dict(counter)`. -/
def counterToObj (cnt : List (List Char × Nat)) : PyObj :=
  PyObj.pydict (cnt.map (fun kv => (kv.1, PyObj.pyint (kv.2 : Int))))

/-- The JSON object `run.__dict__` written by `save_review_run`:
severity and category histograms over the comment list, and
`comment_count = len(comments)`. -/
def run_to_obj (runId repoId : String) (prNumber : Int) (createdAt summary : String)
    (comments : List ReviewComment) : PyObj :=
  PyObj.pydict
    [ (("id").data, PyObj.pystr runId.data)
    , (("repo_id").data, PyObj.pystr repoId.data)
    , (("pr_number").data, PyObj.pyint prNumber)
    , (("created_at").data, PyObj.pystr createdAt.data)
    , (("summary").data, PyObj.pystr summary.data)
    , (("comment_count").data, PyObj.pyint (comments.length : Int))
    , (("stats").data, PyObj.pydict
        [ (("by_severity").data, counterToObj (pyCounter (comments.map (fun c => c.severity))))
        , (("by_category").data, counterToObj (pyCounter (comments.map (fun c => c.category)))) ]) ]

/-- `save_review_run`: append one record line to the log. -/
def save_review_run (log : List (Option PyObj)) (repoId : String) (prNumber : Int)
    (summary : String) (comments : List ReviewComment) (runId createdAt : String) :
    List (Option PyObj) :=
  log ++ [some (run_to_obj runId repoId prNumber createdAt summary comments)]

/-- `metrics/models.py` `ReviewRun` as `load_review_runs` rebuilds it:
fields hold whatever the JSON line carried (the dataclass does not
validate types). -/
structure ReviewRun where
  id : PyObj
  repo_id : PyObj
  pr_number : PyObj
  created_at : PyObj
  summary : PyObj
  comment_count : PyObj
  stats : PyObj
deriving Repr

/-- One iteration of the `load_review_runs` loop: a malformed line
(`Option.none`), a non-dict line (`data["id"]` raises `TypeError`) or
a missing required key (`KeyError`) is skipped by `except: continue`;
`stats` defaults to `{}` via `data.get`. -/
def parse_run_line : Option PyObj → Option ReviewRun
  | Option.none => Option.none
  | some (PyObj.pydict kvs) => do
    let i ← pyGet kvs (("id").data)
    let r ← pyGet kvs (("repo_id").data)
    let p ← pyGet kvs (("pr_number").data)
    let ca ← pyGet kvs (("created_at").data)
    let su ← pyGet kvs (("summary").data)
    let cc ← pyGet kvs (("comment_count").data)
    pure ⟨i, r, p, ca, su, cc, (pyGet kvs (("stats").data)).getD (PyObj.pydict [])⟩
  | some _ => Option.none

/-- `load_review_runs`: every parseable line, in file order. -/
def load_review_runs (log : List (Option PyObj)) : List ReviewRun :=
  log.filterMap parse_run_line

/-- Sum of the values of the field `k` of a stats object, when that
field is an object with integer values. -/
def sumIntsOf : List PyObj → Option Int
  | [] => some 0
  | PyObj.pyint n :: rest => (sumIntsOf rest).map (fun s => n + s)
  | _ :: _ => Option.none

/-- Total of one histogram dimension of a stats object. -/
def statsTotal (stats : PyObj) (k : List Char) : Option Int :=
  match stats with
  | PyObj.pydict kvs =>
    (match pyGet kvs k with
     | some (PyObj.pydict vs) => sumIntsOf (vs.map (fun kv => kv.2))
     | _ => Option.none)
  | _ => Option.none

/- ---------------------------------------------------------------
app.py — `cosine_sim` and the semantic-cache lookup of `main`.

Embedding vectors are lists of reals (the idealization of Python
floats; the spec's "within floating tolerance" becomes exactness).
The cache is the session list `st.session_state.qa_semantic_cache`,
an entry being one appended dict; the lookup is the scan in
`main` guarded by `SEMANTIC_THRESHOLD = 0.90`.
--------------------------------------------------------------- -/

/-- `sum(x * y for x, y in zip(a, b))`. -/
noncomputable def dotL (a b : List ℝ) : ℝ :=
  ((a.zip b).map (fun p => p.1 * p.2)).sum

/-- `sum(x * x for x in a)`. -/
noncomputable def sumSq (a : List ℝ) : ℝ :=
  (a.map (fun x => x * x)).sum

/-- `cosine_sim`: zero when either norm is zero, else the normalized
dot product. -/
noncomputable def cosine_sim (a b : List ℝ) : ℝ :=
  let na := Real.sqrt (sumSq a)
  let nb := Real.sqrt (sumSq b)
  if na = 0 ∨ nb = 0 then 0 else dotL a b / (na * nb)

/-- One semantic-cache entry (the dict appended in `main`
after a fresh answer). -/
structure CacheEntry where
  repo_id : String
  index_version : String
  question : String
  embedding : List ℝ
  answer : String
deriving Inhabited

/-- The scan over the cache list: skip entries whose `repo_id` or
`index_version` differ, keep the best strictly improving cosine
similarity, starting from `best_entry = None`, `best_sim = 0.0`. -/
noncomputable def scanCache (qEmb : List ℝ) (repoId iv : String) :
    List CacheEntry → Option CacheEntry × ℝ → Option CacheEntry × ℝ
  | [], acc => acc
  | e :: rest, (be, bs) =>
    if e.repo_id ≠ repoId then scanCache qEmb repoId iv rest (be, bs)
    else if e.index_version ≠ iv then scanCache qEmb repoId iv rest (be, bs)
    else
      if bs < cosine_sim qEmb e.embedding then
        scanCache qEmb repoId iv rest (some e, cosine_sim qEmb e.embedding)
      else scanCache qEmb repoId iv rest (be, bs)

/-- The served entry: `best_entry` when additionally
`best_sim >= SEMANTIC_THRESHOLD` (0.90), else a cache miss. -/
noncomputable def cacheLookup (cache : List CacheEntry) (repoId iv : String)
    (qEmb : List ℝ) : Option CacheEntry :=
  match scanCache qEmb repoId iv cache (Option.none, 0) with
  | (some e, bs) => if (9 / 10 : ℝ) ≤ bs then some e else Option.none
  | (Option.none, _) => Option.none

/-- An entry is a candidate for the current lookup key. -/
def entryMatches (repoId iv : String) (e : CacheEntry) : Prop :=
  e.repo_id = repoId ∧ e.index_version = iv

/- ---------------------------------------------------------------
Theorems.
--------------------------------------------------------------- -/

/-- C3 counterexample: a plain `openai.APIError` is neither
rate-limiting nor one of the transient HTTP statuses, yet the wrapper
(at its defaults) invokes the failing function three times instead of
propagating on the first attempt. -/
theorem c3_counterexample_api_error_retried :
    (with_retry 3 1 (1/2) (fun _ => 0)
      (fun _ => (Except.error PyErr.apiErr : Except PyErr Unit))).calls = 3 ∧
    ¬ (with_retry 3 1 (1/2) (fun _ => 0)
      (fun _ => (Except.error PyErr.apiErr : Except PyErr Unit))).calls = 1 := by
  refine ⟨rfl, ?_⟩
  intro h
  have h3 : (with_retry 3 1 (1/2) (fun _ => 0)
      (fun _ => (Except.error PyErr.apiErr : Except PyErr Unit))).calls = 3 := rfl
  omega

/-- C3 (amended): the wrapper retries exactly the conditions of its
`retry_on` tuple — rate limiting, any `openai.APIError`, and
`requests.HTTPError` with status in {429, 500, 502, 503, 504}; every
failure outside these (in particular a `requests.HTTPError` 404)
propagates on the first attempt with no sleeps; at the source
defaults, a function failing twice with HTTP 503 and then succeeding
is invoked exactly 3 times with non-decreasing delays; and when all
attempts fail the last error propagates to the caller unchanged. -/
theorem c3_retry_amended {α : Type} (js : Nat → ℚ) (f : Nat → Except PyErr α) :
    (∀ (m : Nat) (base jitter : ℚ) (e : PyErr), 0 < m → f 0 = Except.error e →
      (retryCatches e = false ∨ httpNonRetriable e = true) →
      with_retry m base jitter js f = ⟨some (Except.error e), 1, []⟩) ∧
    (∀ (base jitter : ℚ), f 0 = Except.error (PyErr.httpErr (some 404)) →
      with_retry 3 base jitter js f =
        ⟨some (Except.error (PyErr.httpErr (some 404))), 1, []⟩) ∧
    ((∀ n, 0 ≤ js n ∧ js n < 1) →
      f 0 = Except.error (PyErr.httpErr (some 503)) →
      f 1 = Except.error (PyErr.httpErr (some 503)) →
      ∀ a, f 2 = Except.ok a →
        with_retry 3 1 (1/2) js f =
          ⟨some (Except.ok a), 3, [1 + js 0 * (1/2), 2 + js 1 * (1/2)]⟩ ∧
        1 + js 0 * (1/2) ≤ 2 + js 1 * (1/2)) ∧
    (∀ e0 e1 e2 : PyErr,
      retryCatches e0 = true → httpNonRetriable e0 = false →
      retryCatches e1 = true → httpNonRetriable e1 = false →
      retryCatches e2 = true → httpNonRetriable e2 = false →
      f 0 = Except.error e0 → f 1 = Except.error e1 → f 2 = Except.error e2 →
      (with_retry 3 1 (1/2) js f).outcome = some (Except.error e2) ∧
      (with_retry 3 1 (1/2) js f).calls = 3) := by
  refine ⟨?_, ?_, ?_, ?_⟩
  · intro m base jitter e hm hf0 hcond
    obtain ⟨m', rfl⟩ : ∃ m', m = m' + 1 := ⟨m - 1, by omega⟩
    rcases hcond with hc | hh
    · simp [with_retry, withRetryGo, hf0, hc]
    · have hc : ¬ retryCatches e = false := by
        cases e <;> simp_all [retryCatches, httpNonRetriable]
      simp [with_retry, withRetryGo, hf0, hh, hc]
  · intro base jitter hf0
    simp [with_retry, withRetryGo, hf0, httpNonRetriable]
  · intro hjs hf0 hf1 a hf2
    have h503 : httpNonRetriable (PyErr.httpErr (some 503)) = false := by
      simp [httpNonRetriable]
    constructor
    · simp [with_retry, withRetryGo, hf0, hf1, hf2, retryCatches, h503]
    · have h0 := (hjs 0).2
      have h1 := (hjs 1).1
      nlinarith
  · intro e0 e1 e2 hc0 hh0 hc1 hh1 hc2 hh2 hf0 hf1 hf2
    constructor <;>
      simp [with_retry, withRetryGo, hf0, hf1, hf2, hc0, hh0, hc1, hh1, hc2, hh2]

/-- C3 witness: at the defaults with zero jitter draws, the
503-503-success function is called 3 times with sleeps 1 and 2, and a
404 `requests.HTTPError` propagates after a single call. -/
theorem c3_retry_witness :
    with_retry 3 1 (1/2) (fun _ => 0)
      (fun n => if n < 2 then Except.error (PyErr.httpErr (some 503)) else Except.ok ()) =
      ⟨some (Except.ok ()), 3, [1 + 0 * (1/2), 2 + 0 * (1/2)]⟩ ∧
    with_retry 3 1 (1/2) (fun _ => 0)
      (fun _ => (Except.error (PyErr.httpErr (some 404)) : Except PyErr Unit)) =
      ⟨some (Except.error (PyErr.httpErr (some 404))), 1, []⟩ := by
  constructor
  · exact ((c3_retry_amended (fun _ => 0)
      (fun n => if n < 2 then Except.error (PyErr.httpErr (some 503)) else Except.ok ())).2.2.1
      (fun _ => ⟨le_refl 0, zero_lt_one⟩) rfl rfl () rfl).1
  · exact (c3_retry_amended (fun _ => 0)
      (fun _ => (Except.error (PyErr.httpErr (some 404)) : Except PyErr Unit))).2.1 1 (1/2) rfl

/-- C2: the two documented header shapes parse to `(12, 19)` and
`(1, 1)`; a patch with no `@@` line yields the empty header with
`newStart = newEnd = 1`; and every file payload with a non-empty
textual patch yields exactly one DiffChunk carrying the parsed header
fields — never dropped. -/
theorem c2_diff_header_parsing :
    parse_unified_header ("@@ -10,5 +12,8 @@\n ctx line") = (("@@ -10,5 +12,8 @@"), 12, 19) ∧
    parse_unified_header ("@@ -1 +1 @@\n old") = (("@@ -1 +1 @@"), 1, 1) ∧
    (∀ patch : String,
      (∀ l ∈ splitLinesPy patch.data, beginsWith (stripL l) [('@'), ('@')] = false) →
      parse_unified_header patch = (("") , 1, 1)) ∧
    (∀ (repoId : String) (prNumber : Int) (files : List GitHubFile),
      (build_diff_chunks_from_github_files repoId prNumber files).length =
        (files.filter (fun f => decide (f.patch.getD ("") ≠ ("")))).length ∧
      ∀ f ∈ files, ∀ p : String, f.patch = some p → p ≠ ("") →
        ∃ c ∈ build_diff_chunks_from_github_files repoId prNumber files,
          c.file_path = f.filename ∧ c.hunk_header = (parse_unified_header p).1 ∧
          c.new_start = (parse_unified_header p).2.1 ∧
          c.new_end = (parse_unified_header p).2.2 ∧ c.patch_text = p) := by
  refine ⟨rfl, rfl, ?_, ?_⟩
  · intro patch h
    by_cases hp : patch = ("")
    · simp [parse_unified_header, hp]
    · have hnone : firstHeaderLine patch.data = Option.none := by
        unfold firstHeaderLine
        apply List.find?_eq_none.mpr
        intro x hx
        rw [List.mem_map] at hx
        obtain ⟨l, hl, rfl⟩ := hx
        simpa using h l hl
      simp [parse_unified_header, hp, hnone]
  · intro repoId prNumber files
    constructor
    · induction files with
      | nil => rfl
      | cons f fs ih =>
        cases hf : f.patch with
        | none =>
          simpa [build_diff_chunks_from_github_files, List.filterMap_cons, hf,
            List.filter_cons] using ih
        | some p =>
          by_cases hp : p = ("")
          · simpa [build_diff_chunks_from_github_files, List.filterMap_cons, hf, hp,
              List.filter_cons] using ih
          · simpa [build_diff_chunks_from_github_files, List.filterMap_cons, hf, hp,
              List.filter_cons] using ih
    · intro f hf p hp hpne
      refine ⟨{ repo_id := repoId, pr_number := prNumber, file_path := f.filename,
                status := f.status.getD ("modified"),
                hunk_header := (parse_unified_header p).1,
                new_start := (parse_unified_header p).2.1,
                new_end := (parse_unified_header p).2.2,
                patch_text := p },
              List.mem_filterMap.mpr ⟨f, hf, ?_⟩, rfl, rfl, rfl, rfl, rfl⟩
      simp [hp, hpne]

/-- C2 witness: a two-payload list (one binary file without a patch,
one modified file with a patch) produces exactly one chunk, and that
chunk carries the parsed header of its file's patch. -/
theorem c2_diff_header_witness :
    (build_diff_chunks_from_github_files ("github::o/r") 7
      [⟨("a.py"), some ("modified"), some ("@@ -1 +2,3 @@\nnew")⟩,
       ⟨("img.png"), some ("added"), Option.none⟩]).length = 1 ∧
    ∃ c ∈ build_diff_chunks_from_github_files ("github::o/r") 7
      [⟨("a.py"), some ("modified"), some ("@@ -1 +2,3 @@\nnew")⟩,
       ⟨("img.png"), some ("added"), Option.none⟩],
      c.file_path = ("a.py") ∧
      c.hunk_header = (parse_unified_header ("@@ -1 +2,3 @@\nnew")).1 ∧
      c.new_start = (parse_unified_header ("@@ -1 +2,3 @@\nnew")).2.1 ∧
      c.new_end = (parse_unified_header ("@@ -1 +2,3 @@\nnew")).2.2 ∧
      c.patch_text = ("@@ -1 +2,3 @@\nnew") := by
  constructor
  · exact ((c2_diff_header_parsing.2.2.2 ("github::o/r") 7
      [⟨("a.py"), some ("modified"), some ("@@ -1 +2,3 @@\nnew")⟩,
       ⟨("img.png"), some ("added"), Option.none⟩]).1).trans (by decide)
  · exact (c2_diff_header_parsing.2.2.2 ("github::o/r") 7
      [⟨("a.py"), some ("modified"), some ("@@ -1 +2,3 @@\nnew")⟩,
       ⟨("img.png"), some ("added"), Option.none⟩]).2
      ⟨("a.py"), some ("modified"), some ("@@ -1 +2,3 @@\nnew")⟩ (by simp)
      ("@@ -1 +2,3 @@\nnew") rfl (by decide)

/-- C8 counterexample: a patch whose first `@@` line exists but fails
to parse (`+x` is not numeric) is given the `@@` line itself as
header, not the empty string the claim requires. -/
theorem c8_counterexample_header_kept :
    parse_unified_header ("@@ -1 +x @@\n context") = (("@@ -1 +x @@"), 1, 1) ∧
    (("@@ -1 +x @@") : String) ≠ ("") := by
  exact ⟨rfl, by decide⟩

/-- C8 (amended): when the first `@@` line of a non-empty patch fails
to parse, the emitted DiffChunk defaults to `newStart = newEnd = 1`
but keeps that `@@` line (stripped) as its header — the empty header
only arises when no `@@` line exists at all — and the chunk is still
emitted, never dropped. -/
theorem c8_parse_failure_defaults (patch : String) (line : List Char)
    (hne : patch ≠ (""))
    (hfind : firstHeaderLine patch.data = some line)
    (hfail : parsePlusToken line = Option.none) :
    parse_unified_header patch = (String.mk line, 1, 1) ∧
    ∀ (repoId : String) (prNumber : Int) (f : GitHubFile), f.patch = some patch →
      (build_diff_chunks_from_github_files repoId prNumber [f]).length = 1 ∧
      ∀ c ∈ build_diff_chunks_from_github_files repoId prNumber [f],
        c.hunk_header = String.mk line ∧ c.new_start = 1 ∧ c.new_end = 1 := by
  have hparse : parse_unified_header patch = (String.mk line, 1, 1) := by
    simp [parse_unified_header, hne, hfind, hfail]
  refine ⟨hparse, ?_⟩
  intro repoId prNumber f hf
  constructor
  · simp [build_diff_chunks_from_github_files, hf, hne]
  · intro c hc
    simp [build_diff_chunks_from_github_files, hf, hne] at hc
    subst hc
    simp [hparse]

/-- C8 witness: the amended behaviour at the concrete failing patch
`"@@ -1 +x @@" ...`: the header is that line, the range defaults to
`(1, 1)`, and a payload carrying the patch still yields its chunk. -/
theorem c8_parse_failure_witness :
    parse_unified_header ("@@ -1 +x @@\n ctx") = (String.mk (("@@ -1 +x @@").data), 1, 1) ∧
    (build_diff_chunks_from_github_files ("repo") 3
      [⟨("f.py"), Option.none, some ("@@ -1 +x @@\n ctx")⟩]).length = 1 := by
  constructor
  · exact (c8_parse_failure_defaults ("@@ -1 +x @@\n ctx") (("@@ -1 +x @@").data)
      (by decide) rfl rfl).1
  · exact ((c8_parse_failure_defaults ("@@ -1 +x @@\n ctx") (("@@ -1 +x @@").data)
      (by decide) rfl rfl).2 ("repo") 3
      ⟨("f.py"), Option.none, some ("@@ -1 +x @@\n ctx")⟩ rfl).1

/-- The chunk loop is the window loop followed by the blank filter. -/
lemma chunkFileGo_eq_windows (repoId fp lang : String) (lines : List (List Char))
    (maxL ov : Int) :
    ∀ (fuel : Nat) (start : Int),
      chunkFileGo repoId fp lang lines maxL ov fuel start =
        (chunkWindowsGo (lines.length : Int) maxL ov fuel start).map
          (fun ws => ws.filterMap (windowChunk repoId fp lang lines)) := by
  intro fuel
  induction fuel with
  | zero => intro start; rfl
  | succ fuel ih =>
    intro start
    show (if start < (lines.length : Int) then _ else _) = _
    by_cases h1 : start < (lines.length : Int)
    · rw [if_pos h1]
      show (if _ = (lines.length : Int) then _ else _) = _
      by_cases h2 : min (start + maxL) (lines.length : Int) = (lines.length : Int)
      · rw [if_pos h2]
        rw [show chunkWindowsGo (lines.length : Int) maxL ov (fuel + 1) start =
            some [(start, min (start + maxL) (lines.length : Int))] by
          simp [chunkWindowsGo, h1, h2]]
        by_cases hb : stripL (windowContent lines start
            (min (start + maxL) (lines.length : Int))) ≠ [] <;>
          simp [windowChunk, hb]
      · rw [if_neg h2]
        rw [ih (min (start + maxL) (lines.length : Int) - ov)]
        rw [show chunkWindowsGo (lines.length : Int) maxL ov (fuel + 1) start =
            (match chunkWindowsGo (lines.length : Int) maxL ov fuel
                (min (start + maxL) (lines.length : Int) - ov) with
             | some rest => some ((start, min (start + maxL) (lines.length : Int)) :: rest)
             | Option.none => Option.none) by
          simp [chunkWindowsGo, h1, h2]]
        cases hrec : chunkWindowsGo (lines.length : Int) maxL ov fuel
            (min (start + maxL) (lines.length : Int) - ov) with
        | none => rfl
        | some rest =>
          by_cases hb : stripL (windowContent lines start
              (min (start + maxL) (lines.length : Int))) ≠ [] <;>
            simp [windowChunk, hb]
    · rw [if_neg h1]
      rw [show chunkWindowsGo (lines.length : Int) maxL ov (fuel + 1) start = some [] by
        simp [chunkWindowsGo, h1]]
      rfl

/-- With `0 ≤ overlap < max`, enough fuel makes the window loop return,
and the returned windows are well-formed and chained: each window
spans `[start, min(start + max, n))`, and each successor starts
exactly `overlap` lines before its predecessor's end. -/
lemma chunkWindowsGo_spec (n maxL ov : Int) (hov : 0 ≤ ov) (hlt : ov < maxL) :
    ∀ (fuel : Nat) (start : Int), max 0 (n - start) < (fuel : Int) →
      ∃ ws, chunkWindowsGo n maxL ov fuel start = some ws ∧
        (∀ w ∈ ws, start ≤ w.1 ∧ w.1 < n ∧ w.2 = min (w.1 + maxL) n) ∧
        (∀ w, ws.head? = some w → w.1 = start) ∧
        List.Chain' (fun w1 w2 =>
          w2.1 = w1.2 - ov ∧ w1.2 = w1.1 + maxL ∧ w1.2 < n ∧
          w2.2 = min (w2.1 + maxL) n) ws := by
  intro fuel
  induction fuel with
  | zero => intro start h; exfalso; omega
  | succ fuel ih =>
    intro start h
    by_cases h1 : start < n
    · by_cases h2 : min (start + maxL) n = n
      · refine ⟨[(start, min (start + maxL) n)], by simp [chunkWindowsGo, h1, h2], ?_, ?_, ?_⟩
        · intro w hw
          rw [List.mem_singleton] at hw
          subst hw
          exact ⟨le_refl _, h1, rfl⟩
        · intro w hw
          simp at hw
          subst hw
          rfl
        · simp
      · have hle : min (start + maxL) n ≤ n := min_le_right _ _
        have heq : min (start + maxL) n = start + maxL := by omega
        obtain ⟨ws', heq', hmem', hhead', hchain'⟩ :=
          ih (min (start + maxL) n - ov) (by omega)
        refine ⟨(start, min (start + maxL) n) :: ws', ?_, ?_, ?_, ?_⟩
        · simp [chunkWindowsGo, h1, h2, heq']
        · intro w hw
          rcases List.mem_cons.mp hw with hw | hw
          · subst hw
            exact ⟨le_refl _, h1, rfl⟩
          · obtain ⟨hs, hn, hm⟩ := hmem' w hw
            exact ⟨by omega, hn, hm⟩
        · intro w hw
          simp at hw
          subst hw
          rfl
        · rw [List.chain'_cons']
          refine ⟨?_, hchain'⟩
          intro w' hw'
          have hmem0 : w' ∈ ws' := List.mem_of_mem_head? hw'
          obtain ⟨hs, hn, hm⟩ := hmem' w' hmem0
          have hh := hhead' w' hw'
          exact ⟨by omega, by omega, by omega, hm⟩
    · exact ⟨[], by simp [chunkWindowsGo, h1], by simp, by simp, by simp⟩

/-- When every window's content survives the blank filter, the filter
is the identity embedding of windows into chunks. -/
lemma filterMap_windowChunk_all_kept (repoId fp lang : String)
    (lines : List (List Char)) :
    ∀ ws : List (Int × Int),
      (∀ w ∈ ws, stripL (windowContent lines w.1 w.2) ≠ []) →
      ws.filterMap (windowChunk repoId fp lang lines) =
        ws.map (fun w =>
          (⟨repoId, fp, lang, w.1 + 1, w.2, String.mk (windowContent lines w.1 w.2)⟩ :
            CodeChunk)) := by
  intro ws
  induction ws with
  | nil => intro _; rfl
  | cons w rest ih =>
    intro h
    have hw := h w (List.mem_cons_self w rest)
    have hcw : windowChunk repoId fp lang lines w =
        some ⟨repoId, fp, lang, w.1 + 1, w.2, String.mk (windowContent lines w.1 w.2)⟩ := by
      simp [windowChunk, hw]
    simp only [List.filterMap_cons, hcw, List.map_cons]
    rw [ih (fun w' hw' => h w' (List.mem_cons_of_mem _ hw'))]

/-- C6 counterexample: with `max_lines = 2`, `overlap = 1`, the file
`"a\n\n\nb"` drops its middle all-blank window, so the two returned
consecutive chunks (lines 1-2 and lines 3-4) share 0 lines, not
`overlapLines = 1`. -/
theorem c6_counterexample_blank_window_overlap :
    chunk_file ("r") ("f.py") ("a\n\n\nb") 2 1 =
      some [⟨("r"), ("f.py"), ("python"), 1, 2, ("a\n")⟩,
            ⟨("r"), ("f.py"), ("python"), 3, 4, ("\nb")⟩] ∧
    sharedLines ⟨("r"), ("f.py"), ("python"), 1, 2, ("a\n")⟩
      ⟨("r"), ("f.py"), ("python"), 3, 4, ("\nb")⟩ = 0 ∧
    (0 : Int) ≠ 1 := by
  exact ⟨rfl, rfl, by decide⟩

/-- C6 (amended): for `0 ≤ overlapLines < maxLinesPerChunk` the chunker
returns, every chunk satisfies `startLine ≤ endLine`,
`endLine − startLine + 1 ≤ maxLinesPerChunk` and non-blank content,
chunking is a deterministic function of the file content and the
parameters, and — provided no generated window is dropped for blank
content — consecutive returned chunks share exactly `overlapLines`
lines (including the final pair; a dropped blank window can break
this, as the counterexample shows). -/
theorem c6_chunk_invariants_amended (repoId filePath text : String) (maxL ov : Int)
    (hov : 0 ≤ ov) (hlt : ov < maxL) :
    ∃ cs, chunk_file repoId filePath text maxL ov = some cs ∧
      (∀ c ∈ cs, c.start_line ≤ c.end_line ∧ c.end_line - c.start_line + 1 ≤ maxL ∧
        stripL c.content.data ≠ []) ∧
      (∀ text2 : String, text2.data = text.data →
        chunk_file repoId filePath text2 maxL ov = some cs) ∧
      (∀ ws, chunkWindows text maxL ov = some ws →
        (∀ w ∈ ws, stripL (windowContent (splitLinesPy text.data) w.1 w.2) ≠ []) →
        List.Chain' (fun c d => sharedLines c d = ov) cs) := by
  obtain ⟨ws, hws, hmem, hhead, hchain⟩ :=
    chunkWindowsGo_spec ((splitLinesPy text.data).length : Int) maxL ov hov hlt
      ((splitLinesPy text.data).length + 1) 0 (by push_cast; omega)
  have hcf : chunk_file repoId filePath text maxL ov =
      some (ws.filterMap (windowChunk repoId filePath (guess_language filePath)
        (splitLinesPy text.data))) := by
    unfold chunk_file
    rw [chunkFileGo_eq_windows, hws]
    rfl
  refine ⟨_, hcf, ?_, ?_, ?_⟩
  · intro c hc
    rw [List.mem_filterMap] at hc
    obtain ⟨w, hwmem, hwc⟩ := hc
    obtain ⟨hs, hn, hm⟩ := hmem w hwmem
    by_cases hb : stripL (windowContent (splitLinesPy text.data) w.1 w.2) ≠ []
    · simp [windowChunk, hb] at hwc
      subst hwc
      refine ⟨by simp; omega, by simp; omega, hb⟩
    · simp [windowChunk, hb] at hwc
  · intro text2 h2
    have : text2 = text := by
      cases text2
      cases text
      exact congrArg String.mk h2
    rw [this, hcf]
  · intro ws' hws' hall
    have hws'' : ws' = ws := by
      have h := hws'.symm.trans hws
      exact Option.some.inj h
    subst hws''
    rw [filterMap_windowChunk_all_kept _ _ _ _ ws' hall]
    rw [List.chain'_map]
    refine hchain.imp ?_
    intro a b hab
    obtain ⟨h1, h2, h3, h4⟩ := hab
    simp only [sharedLines]
    omega

/-- C6 witness: `"a\nb\nc"` with `max = 2`, `overlap = 1` yields chunks
on lines 1-2 and 2-3, and (no window being blank) each consecutive
pair shares exactly one line. -/
theorem c6_chunk_invariants_witness :
    chunk_file ("r") ("f.py") ("a\nb\nc") 2 1 =
      some [⟨("r"), ("f.py"), ("python"), 1, 2, ("a\nb")⟩,
            ⟨("r"), ("f.py"), ("python"), 2, 3, ("b\nc")⟩] ∧
    List.Chain' (fun c d => sharedLines c d = 1)
      [⟨("r"), ("f.py"), ("python"), 1, 2, ("a\nb")⟩,
       ⟨("r"), ("f.py"), ("python"), 2, 3, ("b\nc")⟩] := by
  obtain ⟨cs, hcs, hinv, hdet, hovl⟩ :=
    c6_chunk_invariants_amended ("r") ("f.py") ("a\nb\nc") 2 1 (by decide) (by decide)
  have hcs' : cs = [⟨("r"), ("f.py"), ("python"), 1, 2, ("a\nb")⟩,
      ⟨("r"), ("f.py"), ("python"), 2, 3, ("b\nc")⟩] :=
    Option.some.inj ((hcs.symm).trans (by rfl))
  refine ⟨hcs' ▸ hcs, ?_⟩
  have hch := hovl [(0, 2), (1, 3)] rfl (by decide)
  rw [hcs'] at hch
  exact hch

/-- The window loop never returns when `overlap ≥ max`, `1 ≤ max` and
the file has more than `max` lines: from any non-positive start the
next start is no further right, so every fuel is exhausted. -/
lemma chunkWindowsGo_diverges (n maxL ov : Int) (h1 : 1 ≤ maxL) (h2 : maxL ≤ ov)
    (h3 : maxL < n) :
    ∀ (fuel : Nat) (start : Int), start ≤ 0 →
      chunkWindowsGo n maxL ov fuel start = Option.none := by
  intro fuel
  induction fuel with
  | zero => intro start _; rfl
  | succ fuel ih =>
    intro start hs
    have hlt : start < n := by omega
    have hne : ¬ min (start + maxL) n = n := by omega
    have hrec := ih (min (start + maxL) n - ov) (by omega)
    simp [chunkWindowsGo, hlt, hne, hrec]

/-- C10: with `0 ≤ overlap_lines < max_lines_per_chunk` the chunker
loop terminates on every file (the fuel `len(lines) + 1` returns);
and the precondition is necessary: when `overlap_lines ≥
max_lines_per_chunk ≥ 1` and the file has more than
`max_lines_per_chunk` lines, the loop exhausts every fuel, the window
start never advancing (`min(start + max, n) - overlap ≤ start`). -/
theorem c10_chunker_termination :
    (∀ (repoId filePath text : String) (maxL ov : Int), 0 ≤ ov → ov < maxL →
      ∃ cs, chunk_file repoId filePath text maxL ov = some cs) ∧
    (∀ (repoId filePath text : String) (maxL ov : Int) (fuel : Nat),
      1 ≤ maxL → maxL ≤ ov →
      maxL < ((splitLinesPy text.data).length : Int) →
      chunkFileGo repoId filePath (guess_language filePath) (splitLinesPy text.data)
        maxL ov fuel 0 = Option.none ∧
      ∀ start : Int, start ≤ 0 →
        min (start + maxL) ((splitLinesPy text.data).length : Int) - ov ≤ start) := by
  constructor
  · intro repoId filePath text maxL ov hov hlt
    obtain ⟨ws, hws, _, _, _⟩ :=
      chunkWindowsGo_spec ((splitLinesPy text.data).length : Int) maxL ov hov hlt
        ((splitLinesPy text.data).length + 1) 0 (by push_cast; omega)
    refine ⟨ws.filterMap (windowChunk repoId filePath (guess_language filePath)
      (splitLinesPy text.data)), ?_⟩
    unfold chunk_file
    rw [chunkFileGo_eq_windows, hws]
    rfl
  · intro repoId filePath text maxL ov fuel h1 h2 h3
    constructor
    · rw [chunkFileGo_eq_windows]
      rw [chunkWindowsGo_diverges _ _ _ h1 h2 h3 fuel 0 (le_refl 0)]
      rfl
    · intro start hs
      omega

/-- C10 witness: a 3-line file with `max = 2 > overlap = 1` chunks
successfully, while a 2-line file with `max = overlap = 1` exhausts a
concrete fuel of 5 iterations. -/
theorem c10_chunker_termination_witness :
    (∃ cs, chunk_file ("r") ("f.py") ("a\nb\nc") 2 1 = some cs) ∧
    chunkFileGo ("r") ("f.py") (guess_language ("f.py")) (splitLinesPy ("a\nb").data)
      1 1 5 0 = Option.none := by
  constructor
  · exact c10_chunker_termination.1 ("r") ("f.py") ("a\nb\nc") 2 1 (by decide) (by decide)
  · exact (c10_chunker_termination.2 ("r") ("f.py") ("a\nb") 1 1 5 (by decide) (by decide)
      (by decide)).1

/-- Bumping a counter key raises the total of its counts by one. -/
lemma bumpKey_sum (cnt : List (List Char × Nat)) (k : List Char) :
    ((bumpKey cnt k).map (fun kv => kv.2)).sum = (cnt.map (fun kv => kv.2)).sum + 1 := by
  induction cnt with
  | nil => rfl
  | cons kv rest ih =>
    by_cases h : kv.1 = k
    · simp [bumpKey, h]
      omega
    · simp [bumpKey, h, ih]
      omega

/-- The counts of `Counter(xs)` sum to `len(xs)`. -/
lemma pyCounter_sum (xs : List (List Char)) :
    ((pyCounter xs).map (fun kv => kv.2)).sum = xs.length := by
  suffices h : ∀ acc : List (List Char × Nat),
      ((xs.foldl bumpKey acc).map (fun kv => kv.2)).sum =
        (acc.map (fun kv => kv.2)).sum + xs.length by
    simpa [pyCounter] using h []
  induction xs with
  | nil => intro acc; simp
  | cons x xs ih =>
    intro acc
    rw [List.foldl_cons, ih (bumpKey acc x), bumpKey_sum]
    simp only [List.length_cons]
    omega

/-- Summing the integer values of a rendered counter. -/
lemma sumIntsOf_counter (cnt : List (List Char × Nat)) :
    sumIntsOf ((cnt.map (fun kv => (kv.1, PyObj.pyint (kv.2 : Int)))).map (fun kv => kv.2)) =
      some (((cnt.map (fun kv => kv.2)).sum : Nat) : Int) := by
  induction cnt with
  | nil => rfl
  | cons kv rest ih =>
    simp only [List.map_cons, sumIntsOf, ih, Option.map_some', Option.some.injEq,
      List.sum_cons]
    push_cast
    ring

/-- C7: appending a run with `save_review_run` and reading the log back
with `load_review_runs` returns the prior runs, in order, plus the new
run, whose `comment_count` is the length of the saved comment list and
whose `stats.by_severity` and `stats.by_category` values each sum to
that length; and a malformed line anywhere in the log is skipped, not
fatal. -/
theorem c7_save_load_roundtrip (log : List (Option PyObj)) (repoId : String)
    (prNumber : Int) (summary : String) (comments : List ReviewComment)
    (runId createdAt : String) :
    load_review_runs (save_review_run log repoId prNumber summary comments runId createdAt) =
      load_review_runs log ++
        [⟨PyObj.pystr runId.data, PyObj.pystr repoId.data, PyObj.pyint prNumber,
          PyObj.pystr createdAt.data, PyObj.pystr summary.data,
          PyObj.pyint (comments.length : Int),
          PyObj.pydict
            [ (("by_severity").data,
               counterToObj (pyCounter (comments.map (fun c => c.severity))))
            , (("by_category").data,
               counterToObj (pyCounter (comments.map (fun c => c.category)))) ]⟩] ∧
    statsTotal (PyObj.pydict
        [ (("by_severity").data,
           counterToObj (pyCounter (comments.map (fun c => c.severity))))
        , (("by_category").data,
           counterToObj (pyCounter (comments.map (fun c => c.category)))) ])
      (("by_severity").data) = some ((comments.length : Nat) : Int) ∧
    statsTotal (PyObj.pydict
        [ (("by_severity").data,
           counterToObj (pyCounter (comments.map (fun c => c.severity))))
        , (("by_category").data,
           counterToObj (pyCounter (comments.map (fun c => c.category)))) ])
      (("by_category").data) = some ((comments.length : Nat) : Int) ∧
    (∀ l1 l2 : List (Option PyObj),
      load_review_runs (l1 ++ Option.none :: l2) = load_review_runs (l1 ++ l2)) := by
  refine ⟨?_, ?_, ?_, ?_⟩
  · unfold save_review_run load_review_runs
    rw [List.filterMap_append]
    rfl
  · show statsTotal _ _ = _
    rw [show statsTotal (PyObj.pydict
        [ (("by_severity").data,
           counterToObj (pyCounter (comments.map (fun c => c.severity))))
        , (("by_category").data,
           counterToObj (pyCounter (comments.map (fun c => c.category)))) ])
        (("by_severity").data) =
      sumIntsOf (((pyCounter (comments.map (fun c => c.severity))).map
        (fun kv => (kv.1, PyObj.pyint (kv.2 : Int)))).map (fun kv => kv.2)) from rfl]
    rw [sumIntsOf_counter, pyCounter_sum]
    simp
  · rw [show statsTotal (PyObj.pydict
        [ (("by_severity").data,
           counterToObj (pyCounter (comments.map (fun c => c.severity))))
        , (("by_category").data,
           counterToObj (pyCounter (comments.map (fun c => c.category)))) ])
        (("by_category").data) =
      sumIntsOf (((pyCounter (comments.map (fun c => c.category))).map
        (fun kv => (kv.1, PyObj.pyint (kv.2 : Int)))).map (fun kv => kv.2)) from rfl]
    rw [sumIntsOf_counter, pyCounter_sum]
    simp
  · intro l1 l2
    unfold load_review_runs
    rw [List.filterMap_append, List.filterMap_append, List.filterMap_cons]
    rfl

set_option maxRecDepth 16384 in
/-- C4 counterexample: `"[]"` is valid JSON, so both guarded parse
attempts are bypassed, and the unguarded `data.get("summary")` on a
list raises `AttributeError` to the caller — the parser does not
"never raise". -/
theorem c4_counterexample_non_object_raises :
    parse_review_output ("[]") 1 =
      Except.error (("AttributeError: the parsed value is not a dict and has no get method")) ∧
    parse_review_output ("[]") 1 ≠
      Except.ok (String.mk (fallback_summary ("[]").data), []) := by
  refine ⟨rfl, ?_⟩
  intro hcontra
  rw [show parse_review_output ("[]") 1 =
      Except.error (("AttributeError: the parsed value is not a dict and has no get method"))
    from rfl] at hcontra
  exact Except.noConfusion hcontra

set_option maxRecDepth 16384 in
/-- C4 (amended): when neither the direct `json.loads` nor the
first-`{`-to-last-`}` retry yields a value, the parser returns the
raw text annotated as non-JSON with an empty comment list instead of
raising; the retry is exactly `json.loads` on that brace slice, so
JSON wrapped in prose still parses; and a successfully parsed JSON
object with an iterable (or falsy) comments field also returns
normally.  (A parsed non-object value, however, raises — see the
counterexample.) -/
theorem c4_parse_review_output_amended (raw : String) (prNumber : Int) :
    (extract_data raw.data = Option.none →
      parse_review_output raw prNumber =
        Except.ok (String.mk (fallback_summary raw.data), [])) ∧
    (jsonLoads raw.data = Option.none →
      extract_data raw.data = (brace_slice raw.data).bind jsonLoads) ∧
    (∀ kvs, extract_data raw.data = some (PyObj.pydict kvs) →
      ∀ items, comments_items kvs = some items →
        ∃ s cs, parse_review_output raw prNumber = Except.ok (s, cs)) ∧
    parse_review_output
      ("Here is the review: \x7b\x22summary\x22: [\x22ok\x22], \x22comments\x22: []\x7d Thanks!") 1 =
      Except.ok (("- ok"), []) := by
  refine ⟨?_, ?_, ?_, rfl⟩
  · intro h
    simp [parse_review_output, h]
  · intro h
    simp [extract_data, h]
  · intro kvs hk items hi
    refine ⟨String.mk (build_summary (raw.data.length + 1) kvs),
      items.filterMap (parse_comment (raw.data.length + 1) prNumber), ?_⟩
    simp [parse_review_output, hk, hi]

set_option maxRecDepth 16384 in
/-- C4 witness: a brace-free non-JSON output degrades to the annotated
raw text with no comments, and the prose-wrapped object recovers. -/
theorem c4_parse_review_output_witness :
    parse_review_output ("no json here") 5 =
      Except.ok (String.mk (fallback_summary ("no json here").data), []) ∧
    (∃ s cs, parse_review_output
      ("Here is the review: \x7b\x22summary\x22: [\x22ok\x22], \x22comments\x22: []\x7d Thanks!") 1 =
      Except.ok (s, cs)) := by
  constructor
  · exact (c4_parse_review_output_amended ("no json here") 5).1 rfl
  · exact (c4_parse_review_output_amended
      ("Here is the review: \x7b\x22summary\x22: [\x22ok\x22], \x22comments\x22: []\x7d Thanks!") 1).2.2.1
      [(("summary").data, PyObj.pylist [PyObj.pystr (("ok").data)]),
       (("comments").data, PyObj.pylist [])] rfl [] rfl

set_option maxRecDepth 16384 in
/-- C5 counterexample: a present-but-unknown severity `"FATAL"` and
category `"Style"` are only lower-cased — the comment is stored with
`severity = "fatal"` and `category = "style"`, which are outside the
known sets and not the defaults `"info"` / `"readability"` the claim
requires. -/
theorem c5_counterexample_unknown_severity_kept :
    parse_review_output
      ("\x7b\x22summary\x22:[],\x22comments\x22:[\x7b\x22file_path\x22:\x22a.py\x22,\x22line\x22:3,\x22severity\x22:\x22FATAL\x22,\x22category\x22:\x22Style\x22,\x22body\x22:\x22b\x22,\x22rationale\x22:\x22r\x22,\x22note\x22:\x22x\x22\x7d]\x7d") 9 =
    Except.ok (("- "),
      [{ pr_number := 9
         file_path := PyObj.pystr (("a.py").data)
         line := 3
         severity := ("fatal").data
         category := ("style").data
         body := PyObj.pystr (("b").data)
         rationale := PyObj.pystr (("r").data)
         suggestion := PyObj.pynone
         extra := [(("note").data, PyObj.pystr (("x").data))] }]) ∧
    (("fatal").data ∉ [("info").data, ("warning").data, ("critical").data]) ∧
    ("fatal").data ≠ ("info").data ∧
    (("style").data ∉
      [("architecture").data, ("security").data, ("bug-risk").data,
       ("performance").data, ("readability").data, ("testing").data]) ∧
    ("style").data ≠ ("readability").data := by
  exact ⟨rfl, by decide, by decide, by decide, by decide⟩

/-- C5 (amended): severity and category are lower-cased via
`str(...).lower()`; a missing severity defaults to `"info"` and a
missing category to `"readability"`, but present values are NOT
validated against the known sets (an unknown value passes through
lower-cased); every key other than the seven named ones passes
through unchanged into `extra`; and a comment is kept exactly when
its `line` value converts with `int(...)`. -/
theorem c5_comment_normalization_amended (fuel : Nat) (prNumber : Int)
    (kvs : List (List Char × PyObj)) :
    (∀ rc, parse_comment (fuel + 1) prNumber (PyObj.pydict kvs) = some rc →
      (pyGet kvs (("severity").data) = Option.none → rc.severity = ("info").data) ∧
      (∀ s, pyGet kvs (("severity").data) = some (PyObj.pystr s) →
        rc.severity = toLowerL s) ∧
      (pyGet kvs (("category").data) = Option.none → rc.category = ("readability").data) ∧
      (∀ s, pyGet kvs (("category").data) = some (PyObj.pystr s) →
        rc.category = toLowerL s) ∧
      rc.extra = kvs.filter (fun kv => decide (kv.1 ∉ namedCommentKeys)) ∧
      rc.pr_number = prNumber) ∧
    ((parse_comment (fuel + 1) prNumber (PyObj.pydict kvs)).isSome ↔
      (pyToInt ((pyGet kvs (("line").data)).getD (PyObj.pyint 1))).isSome) := by
  constructor
  · intro rc h
    rw [show parse_comment (fuel + 1) prNumber (PyObj.pydict kvs) =
        (match pyToInt ((pyGet kvs (("line").data)).getD (PyObj.pyint 1)) with
         | some ln =>
           some { pr_number := prNumber
                  file_path := (pyGet kvs (("file_path").data)).getD (PyObj.pystr [])
                  line := ln
                  severity := toLowerL (pyStrF (fuel + 1)
                    ((pyGet kvs (("severity").data)).getD (PyObj.pystr (("info").data))))
                  category := toLowerL (pyStrF (fuel + 1)
                    ((pyGet kvs (("category").data)).getD (PyObj.pystr (("readability").data))))
                  body := (pyGet kvs (("body").data)).getD (PyObj.pystr [])
                  rationale := (pyGet kvs (("rationale").data)).getD (PyObj.pystr [])
                  suggestion := (pyGet kvs (("suggestion").data)).getD PyObj.pynone
                  extra := kvs.filter (fun kv => decide (kv.1 ∉ namedCommentKeys)) }
         | Option.none => Option.none) from rfl] at h
    cases hline : pyToInt ((pyGet kvs (("line").data)).getD (PyObj.pyint 1)) with
    | none => rw [hline] at h; exact absurd h (by simp)
    | some ln =>
      rw [hline] at h
      have hrc := Option.some.inj h
      subst hrc
      refine ⟨?_, ?_, ?_, ?_, rfl, rfl⟩
      · intro hget
        simp [hget]
        rfl
      · intro s hget
        simp [hget]
        rfl
      · intro hget
        simp [hget]
        rfl
      · intro s hget
        simp [hget]
        rfl
  · cases hline : pyToInt ((pyGet kvs (("line").data)).getD (PyObj.pyint 1)) with
    | none => simp [parse_comment, hline]
    | some ln => simp [parse_comment, hline]

/-- C5 witness: the spec's own example comment — severity `CRITICAL`,
category `Security` — is stored lower-cased as `critical` /
`security`, with the unnamed key `note` passed through into `extra`. -/
theorem c5_comment_normalization_witness :
    parse_comment 1 4 (PyObj.pydict
      [ (("file_path").data, PyObj.pystr (("x.py").data))
      , (("line").data, PyObj.pyint 5)
      , (("severity").data, PyObj.pystr (("CRITICAL").data))
      , (("category").data, PyObj.pystr (("Security").data))
      , (("body").data, PyObj.pystr (("b").data))
      , (("rationale").data, PyObj.pystr (("r").data))
      , (("note").data, PyObj.pystr (("x").data)) ]) =
      some { pr_number := 4
             file_path := PyObj.pystr (("x.py").data)
             line := 5
             severity := ("critical").data
             category := ("security").data
             body := PyObj.pystr (("b").data)
             rationale := PyObj.pystr (("r").data)
             suggestion := PyObj.pynone
             extra := [(("note").data, PyObj.pystr (("x").data))] } ∧
    ({ pr_number := 4
       file_path := PyObj.pystr (("x.py").data)
       line := 5
       severity := ("critical").data
       category := ("security").data
       body := PyObj.pystr (("b").data)
       rationale := PyObj.pystr (("r").data)
       suggestion := PyObj.pynone
       extra := [(("note").data, PyObj.pystr (("x").data))] } : ReviewComment).severity =
      toLowerL (("CRITICAL").data) := by
  constructor
  · rfl
  · exact ((c5_comment_normalization_amended 0 4
      [ (("file_path").data, PyObj.pystr (("x.py").data))
      , (("line").data, PyObj.pyint 5)
      , (("severity").data, PyObj.pystr (("CRITICAL").data))
      , (("category").data, PyObj.pystr (("Security").data))
      , (("body").data, PyObj.pystr (("b").data))
      , (("rationale").data, PyObj.pystr (("r").data))
      , (("note").data, PyObj.pystr (("x").data)) ]).1 _ rfl).2.1
      (("CRITICAL").data) rfl

/-- A sum of squares is non-negative. -/
lemma sumSq_nonneg (a : List ℝ) : 0 ≤ sumSq a := by
  induction a with
  | nil => simp [sumSq]
  | cons x t ih =>
    simp only [sumSq, List.map_cons, List.sum_cons]
    have := mul_self_nonneg x
    simp only [sumSq] at ih
    linarith

/-- `sum(x*y for zip(a,a))` is the sum of squares of `a`. -/
lemma dotL_self (a : List ℝ) : dotL a a = sumSq a := by
  induction a with
  | nil => rfl
  | cons x t ih =>
    simp only [dotL, sumSq, List.zip_cons_cons, List.map_cons, List.sum_cons] at ih ⊢
    rw [ih]

/-- A vector with a non-zero coordinate has positive sum of squares. -/
lemma sumSq_pos (a : List ℝ) (h : ∃ x ∈ a, x ≠ 0) : 0 < sumSq a := by
  induction a with
  | nil => simp at h
  | cons y t ih =>
    simp only [sumSq, List.map_cons, List.sum_cons]
    obtain ⟨x, hx, hxne⟩ := h
    rcases List.mem_cons.mp hx with hxy | hxt
    · subst hxy
      have h1 : 0 < x * x := mul_self_pos.mpr hxne
      have h2 := sumSq_nonneg t
      simp only [sumSq] at h2
      linarith
    · have h1 := ih ⟨x, hxt, hxne⟩
      simp only [sumSq] at h1
      have h2 := mul_self_nonneg y
      linarith

/-- The all-zero vector has zero sum of squares. -/
lemma sumSq_zero (b : List ℝ) (h : ∀ x ∈ b, x = 0) : sumSq b = 0 := by
  induction b with
  | nil => rfl
  | cons y t ih =>
    simp only [sumSq, List.map_cons, List.sum_cons]
    rw [h y (List.mem_cons_self y t)]
    simp only [sumSq] at ih
    rw [ih (fun x hx => h x (List.mem_cons_of_mem _ hx))]
    ring

/-- Cosine similarity of a vector with a non-zero coordinate against
itself is exactly 1. -/
lemma cosine_self_one (a : List ℝ) (h : ∃ x ∈ a, x ≠ 0) : cosine_sim a a = 1 := by
  have hpos := sumSq_pos a h
  have hsq : Real.sqrt (sumSq a) ≠ 0 := ne_of_gt (Real.sqrt_pos.mpr hpos)
  unfold cosine_sim
  rw [if_neg (by simp [hsq])]
  rw [dotL_self, Real.mul_self_sqrt hpos.le]
  exact div_self (ne_of_gt hpos)

/-- C9: `cosine_sim` is the normalized dot product
`dot(a,b) / (‖a‖·‖b‖)` whenever both norms are non-zero, it is 0
whenever either norm is zero (in particular against any all-zero
vector), and for every vector with a non-zero coordinate the
similarity with itself is exactly 1. -/
theorem c9_cosine_sim_properties (a b : List ℝ) :
    (Real.sqrt (sumSq a) = 0 ∨ Real.sqrt (sumSq b) = 0 → cosine_sim a b = 0) ∧
    ((∀ x ∈ b, x = 0) → cosine_sim a b = 0) ∧
    ((∃ x ∈ a, x ≠ 0) → cosine_sim a a = 1) ∧
    (¬ (Real.sqrt (sumSq a) = 0 ∨ Real.sqrt (sumSq b) = 0) →
      cosine_sim a b = dotL a b / (Real.sqrt (sumSq a) * Real.sqrt (sumSq b))) := by
  refine ⟨?_, ?_, cosine_self_one a, ?_⟩
  · intro h
    unfold cosine_sim
    rw [if_pos h]
  · intro h
    unfold cosine_sim
    rw [if_pos (Or.inr (by rw [sumSq_zero b h, Real.sqrt_zero]))]
  · intro h
    unfold cosine_sim
    rw [if_neg h]

/-- C9 witness: similarity against the all-zero vector `[0, 0]` is 0,
and self-similarity of the non-zero vector `[1]` is 1. -/
theorem c9_cosine_sim_witness :
    cosine_sim [1] [0, 0] = 0 ∧ cosine_sim [1] [1] = 1 := by
  constructor
  · exact (c9_cosine_sim_properties [1] [0, 0]).2.1 (by intro x hx; simp at hx; exact hx)
  · exact (c9_cosine_sim_properties [1] [1]).2.2.1 ⟨1, by simp, one_ne_zero⟩

/-- The cache scan never lowers the best similarity, bounds the
similarity of every matching entry, and either leaves the accumulator
untouched or returns a matching entry together with its similarity. -/
lemma scanCache_spec (qEmb : List ℝ) (repoId iv : String) :
    ∀ (l : List CacheEntry) (be : Option CacheEntry) (bs : ℝ),
      bs ≤ (scanCache qEmb repoId iv l (be, bs)).2 ∧
      (∀ e ∈ l, entryMatches repoId iv e →
        cosine_sim qEmb e.embedding ≤ (scanCache qEmb repoId iv l (be, bs)).2) ∧
      (scanCache qEmb repoId iv l (be, bs) = (be, bs) ∨
        ∃ e ∈ l, entryMatches repoId iv e ∧
          scanCache qEmb repoId iv l (be, bs) = (some e, cosine_sim qEmb e.embedding)) := by
  intro l
  induction l with
  | nil => intro be bs; exact ⟨le_refl _, by simp, Or.inl rfl⟩
  | cons e rest ih =>
    intro be bs
    by_cases h1 : e.repo_id = repoId
    · by_cases h2 : e.index_version = iv
      · by_cases h3 : bs < cosine_sim qEmb e.embedding
        · have hstep : scanCache qEmb repoId iv (e :: rest) (be, bs) =
              scanCache qEmb repoId iv rest (some e, cosine_sim qEmb e.embedding) := by
            simp [scanCache, h1, h2, h3]
          obtain ⟨hmono, hub, hdisj⟩ := ih (some e) (cosine_sim qEmb e.embedding)
          refine ⟨?_, ?_, ?_⟩
          · rw [hstep]; linarith
          · intro e' he' hm'
            rcases List.mem_cons.mp he' with he'' | he''
            · subst he''; rw [hstep]; exact hmono
            · rw [hstep]; exact hub e' he'' hm'
          · rw [hstep]
            rcases hdisj with hd | ⟨e', he', hm', heq⟩
            · exact Or.inr ⟨e, List.mem_cons_self e rest, ⟨h1, h2⟩, hd⟩
            · exact Or.inr ⟨e', List.mem_cons_of_mem _ he', hm', heq⟩
        · have hstep : scanCache qEmb repoId iv (e :: rest) (be, bs) =
              scanCache qEmb repoId iv rest (be, bs) := by
            simp [scanCache, h1, h2, h3]
          obtain ⟨hmono, hub, hdisj⟩ := ih be bs
          refine ⟨by rw [hstep]; exact hmono, ?_, ?_⟩
          · intro e' he' hm'
            rcases List.mem_cons.mp he' with he'' | he''
            · subst he''; rw [hstep]; push_neg at h3; linarith
            · rw [hstep]; exact hub e' he'' hm'
          · rw [hstep]
            rcases hdisj with hd | ⟨e', he', hm', heq⟩
            · exact Or.inl hd
            · exact Or.inr ⟨e', List.mem_cons_of_mem _ he', hm', heq⟩
      · have hstep : scanCache qEmb repoId iv (e :: rest) (be, bs) =
            scanCache qEmb repoId iv rest (be, bs) := by
          simp [scanCache, h1, h2]
        obtain ⟨hmono, hub, hdisj⟩ := ih be bs
        refine ⟨by rw [hstep]; exact hmono, ?_, ?_⟩
        · intro e' he' hm'
          rcases List.mem_cons.mp he' with he'' | he''
          · subst he''; exact absurd hm'.2 h2
          · rw [hstep]; exact hub e' he'' hm'
        · rw [hstep]
          rcases hdisj with hd | ⟨e', he', hm', heq⟩
          · exact Or.inl hd
          · exact Or.inr ⟨e', List.mem_cons_of_mem _ he', hm', heq⟩
    · have hstep : scanCache qEmb repoId iv (e :: rest) (be, bs) =
          scanCache qEmb repoId iv rest (be, bs) := by
        simp [scanCache, h1]
      obtain ⟨hmono, hub, hdisj⟩ := ih be bs
      refine ⟨by rw [hstep]; exact hmono, ?_, ?_⟩
      · intro e' he' hm'
        rcases List.mem_cons.mp he' with he'' | he''
        · subst he''; exact absurd hm'.1 h1
        · rw [hstep]; exact hub e' he'' hm'
      · rw [hstep]
        rcases hdisj with hd | ⟨e', he', hm', heq⟩
        · exact Or.inl hd
        · exact Or.inr ⟨e', List.mem_cons_of_mem _ he', hm', heq⟩

/-- C1: the semantic cache serves an answer if and only if some cached
entry matching the current `repo_id` and `index_version` exactly has
cosine similarity at least 0.90 to the query embedding; and any
served entry matches both keys exactly — so a stale `indexVersion`
entry is never served — and is of maximal similarity among the
matching entries. -/
theorem c1_cache_lookup_iff (cache : List CacheEntry) (repoId iv : String)
    (qEmb : List ℝ) :
    ((cacheLookup cache repoId iv qEmb).isSome = true ↔
      ∃ e ∈ cache, entryMatches repoId iv e ∧
        (9 / 10 : ℝ) ≤ cosine_sim qEmb e.embedding) ∧
    (∀ e, cacheLookup cache repoId iv qEmb = some e →
      entryMatches repoId iv e ∧
      (9 / 10 : ℝ) ≤ cosine_sim qEmb e.embedding ∧
      ∀ e' ∈ cache, entryMatches repoId iv e' →
        cosine_sim qEmb e'.embedding ≤ cosine_sim qEmb e.embedding) := by
  obtain ⟨hmono, hub, hdisj⟩ := scanCache_spec qEmb repoId iv cache Option.none 0
  rcases hre : scanCache qEmb repoId iv cache (Option.none, 0) with ⟨be, bs⟩
  rw [hre] at hmono hub hdisj
  have hlk : cacheLookup cache repoId iv qEmb =
      (match (be, bs) with
       | (some e, s) => if (9 / 10 : ℝ) ≤ s then some e else Option.none
       | (Option.none, _) => Option.none) := by
    unfold cacheLookup
    rw [hre]
  constructor
  · constructor
    · intro hsome
      cases be with
      | none => rw [hlk] at hsome; simp at hsome
      | some e0 =>
        by_cases hth : (9 / 10 : ℝ) ≤ bs
        · rcases hdisj with hd | ⟨e', he', hm', heq⟩
          · exact absurd (congrArg Prod.fst hd) (by simp)
          · have hbs : bs = cosine_sim qEmb e'.embedding := by
              have := congrArg Prod.snd heq
              simpa using this
            exact ⟨e', he', hm', by rw [← hbs]; exact hth⟩
        · rw [hlk] at hsome
          simp [hth] at hsome
    · intro ⟨e, he, hm, hsim⟩
      have hbound := hub e he hm
      have hth : (9 / 10 : ℝ) ≤ bs := le_trans hsim hbound
      cases be with
      | none =>
        rcases hdisj with hd | ⟨e', he', hm', heq⟩
        · have hbs0 : bs = 0 := by
            have := congrArg Prod.snd hd
            simpa using this
          rw [hbs0] at hth
          norm_num at hth
        · exact absurd (congrArg Prod.fst heq) (by simp)
      | some e0 =>
        rw [hlk]
        simp [hth]
  · intro e hlook
    rw [hlk] at hlook
    cases be with
    | none => simp at hlook
    | some e0 =>
      by_cases hth : (9 / 10 : ℝ) ≤ bs
      · simp only [if_pos hth] at hlook
        have he0 : e0 = e := Option.some.inj hlook
        subst he0
        rcases hdisj with hd | ⟨e', he', hm', heq⟩
        · exact absurd (congrArg Prod.fst hd) (by simp)
        · have hee : e0 = e' := by
            have := congrArg Prod.fst heq
            simpa using this
          have hbs : bs = cosine_sim qEmb e'.embedding := by
            have := congrArg Prod.snd heq
            simpa using this
          subst hee
          refine ⟨hm', by rw [← hbs]; exact hth, ?_⟩
          intro e'' he'' hm''
          have := hub e'' he'' hm''
          rw [← hbs]
          exact this
      · simp only [if_neg hth] at hlook
        exact absurd hlook (by simp)

/-- The similarity of `[1]` with itself clears the 0.90 threshold. -/
lemma nine_tenths_le_cos_one : (9 / 10 : ℝ) ≤ cosine_sim [1] [1] := by
  rw [cosine_self_one [1] ⟨1, by simp, one_ne_zero⟩]
  norm_num

/-- C1 witness: a one-entry cache whose entry matches the current
`repo_id` and `index_version` and embeds identically to the query is
served, and the served entry's keys match with similarity ≥ 0.90. -/
theorem c1_cache_lookup_witness :
    (cacheLookup [⟨("r"), ("v"), ("q"), [1], ("ans")⟩] ("r") ("v") [1]).isSome = true ∧
    entryMatches ("r") ("v") (⟨("r"), ("v"), ("q"), [1], ("ans")⟩ : CacheEntry) ∧
    (9 / 10 : ℝ) ≤ cosine_sim [1]
      (⟨("r"), ("v"), ("q"), [1], ("ans")⟩ : CacheEntry).embedding := by
  refine ⟨?_, ⟨rfl, rfl⟩, nine_tenths_le_cos_one⟩
  exact (c1_cache_lookup_iff [⟨("r"), ("v"), ("q"), [1], ("ans")⟩] ("r") ("v") [1]).1.mpr
    ⟨⟨("r"), ("v"), ("q"), [1], ("ans")⟩, List.mem_singleton_self _, ⟨rfl, rfl⟩,
      nine_tenths_le_cos_one⟩
